import Mathlib

/-!
Verification development for the vexo playback scheduler.

Shallow embedding of the core components:
  * `TurnTracker` (src/services/discovery.py, class TurnTracker)
  * `DiscoveryEngine.get_next_song` and `_gather_all_candidates`
    (src/services/discovery.py)
  * the vector math of src/services/vector_engine.py
    (`magnitude`, `cosine_similarity`, `normalize`, `build_user_profile`,
     `score_candidates`, `softmax_select`)
  * the playback-iteration and idle-sweep behaviour of
    src/cogs/music.py (`_play_loop`, `_idle_check_loop`)

Modelling conventions:
  * Python floats are modelled as real numbers (`ℝ`); float literals such
    as `1e-9`, `0.3`, `0.4` become the corresponding rationals cast to `ℝ`.
  * Python dicts used as keyed tables are modelled as association lists
    with `List.lookup`; Python sets used only for membership are modelled
    as lists queried with `∈`.
  * External asynchronous calls (database reads, YouTube/Spotify requests,
    the four candidate pools) are inputs, bundled in an environment
    structure; an exception raised by a pool is the `Except.error` value of
    its slot.
  * `random.random()` draws are inputs (a noise stream and one selection
    draw); SHA-256/MD5 derived slot assignments of the encoder are opaque
    parameters, since no claim depends on their values, only on how the
    surrounding code combines them.
-/

namespace Vexo

/-! ## TurnTracker (src/services/discovery.py lines 52-93)

The tracker keeps `guild_members : dict[int, list[int]]` and
`guild_index : dict[int, int]`.  All claims concern a single guild, so the
state for one guild is modelled as `Option TTEntry`: `none` when the guild
is absent from the dicts, `some e` when present (the source always inserts
into both dicts together). -/

structure TTEntry where
  members : List Int
  index : Nat
  deriving Repr, DecidableEq

/-- Inner loop of `update_members`: starting from the survivors list,
`for m in member_ids: if m not in new_list: new_list.append(m)`. -/
def appendNew (base : List Int) (ids : List Int) : List Int :=
  ids.foldl (fun acc m => if m ∈ acc then acc else acc ++ [m]) base

/-- The new member list computed by `update_members` for a guild already
present: survivors of `current` in order, then newcomers appended. -/
def updateList (current ids : List Int) : List Int :=
  appendNew (current.filter (fun m => decide (m ∈ ids))) ids

/-- TurnTracker.update_members (discovery.py lines 59-78). -/
def update_members (t : Option TTEntry) (ids : List Int) : Option TTEntry :=
  match t with
  | none => some ⟨ids, 0⟩
  | some e =>
      let newList := updateList e.members ids
      some ⟨newList, if e.index ≥ newList.length then 0 else e.index⟩

/-- TurnTracker.get_current_user (discovery.py lines 80-86).  The source
indexes `members[idx]`; under the tracker invariant the index is in range,
and the model returns `none` where Python would raise IndexError. -/
def get_current_user (t : Option TTEntry) : Option Int :=
  match t with
  | none => none
  | some e => if e.members.isEmpty then none else e.members.get? e.index

/-- TurnTracker.advance (discovery.py lines 88-93). -/
def advance (t : Option TTEntry) : Option TTEntry :=
  match t with
  | none => none
  | some e =>
      if e.members.isEmpty then some e
      else some ⟨e.members, (e.index + 1) % e.members.length⟩

/-- The tracker invariant: when the member list is non-empty the current
index is a valid position. -/
def ttValid : Option TTEntry → Prop
  | none => True
  | some e => e.members ≠ [] → e.index < e.members.length

/-! ## Vector engine core math (src/services/vector_engine.py lines 137-164)

Vectors are 128 floats; a Python `list[float]` of fixed length 128 is
modelled as `Fin 128 → ℝ`.  The `1e-9` zero-magnitude guard becomes the
exact rational `1 / 10^9`. -/

abbrev Vec := Fin 128 → ℝ

def zero_vector : Vec := fun _ => 0

noncomputable def magnitude (v : Vec) : ℝ :=
  Real.sqrt (∑ i, v i * v i)

noncomputable def normalize (v : Vec) : Vec :=
  if magnitude v < 1 / 1000000000 then v
  else fun i => v i / magnitude v

/-- cosine_similarity (vector_engine.py lines 152-159): dot product over the
zipped vectors, with a `1e-9` guard on either magnitude. -/
noncomputable def cosine_similarity (a b : Vec) : ℝ :=
  if magnitude a < 1 / 1000000000 ∨ magnitude b < 1 / 1000000000 then 0
  else (∑ i, a i * b i) / (magnitude a * magnitude b)

/-! ## build_user_profile (src/services/vector_engine.py lines 295-344)

The slot assignments that `_encode_genre` and `_artist_hash_dims` derive
from GENRE_MAP / substring matching / MD5 and from SHA-256 are pure
functions of the input string; they are kept as opaque table parameters
(`EncoderTables`), since no claim depends on their values, only on how
`build_user_profile` combines them.  `genreMult` is the confidence
multiplier (1.0 exact, 0.7 substring, 0.4 hash fallback). -/

structure EncoderTables where
  genreDim : String → Fin 64
  genreMult : String → ℝ
  artistDims : String → List (Fin 16)

def genreIdx (T : EncoderTables) (g : String) : Fin 128 :=
  ⟨(T.genreDim g).val, by omega⟩

def artistIdx (d : Fin 16) : Fin 128 := ⟨64 + d.val, by omega⟩

def temporalIdx (j : Fin 8) : Fin 128 := ⟨80 + j.val, by omega⟩

/-- DECADE_MAP (vector_engine.py lines 111-120), applied to the
`.lower().strip()`-normalized key. -/
def decadeMap (d : String) : Option (Fin 8) :=
  let k := d.toLower.trim
  if k = "1950s" ∨ k = "50s" then some 0
  else if k = "1960s" ∨ k = "60s" then some 1
  else if k = "1970s" ∨ k = "70s" then some 2
  else if k = "1980s" ∨ k = "80s" then some 3
  else if k = "1990s" ∨ k = "90s" then some 4
  else if k = "2000s" ∨ k = "00s" then some 5
  else if k = "2010s" ∨ k = "10s" then some 6
  else if k = "2020s" ∨ k = "20s" then some 7
  else none

/-- _encode_genre (vector_engine.py lines 190-206): one slot is raised to
`max(v[idx], weight * mult)`. -/
noncomputable def encode_genre (T : EncoderTables) (v : Vec) (g : String) (weight : ℝ) : Vec :=
  Function.update v (genreIdx T g) (max (v (genreIdx T g)) (weight * T.genreMult g))

/-- Profile steps 1-3 (genre, artist and decade preferences),
vector_engine.py lines 310-328.  Dicts iterate in insertion order; they
are modelled as association lists. -/
noncomputable def prefs_profile (T : EncoderTables)
    (genre_prefs artist_prefs decade_prefs : List (String × ℝ)) : Vec :=
  let v1 := genre_prefs.foldl
    (fun v p => if p.2 > 0 then encode_genre T v p.1 p.2 else v) zero_vector
  let v2 := artist_prefs.foldl
    (fun v p =>
      if p.2 > 0 then
        (T.artistDims p.1).foldl
          (fun w d => Function.update w (artistIdx d) (max (w (artistIdx d)) p.2)) v
      else v) v1
  decade_prefs.foldl
    (fun (v : Vec) (p : String × ℝ) =>
      match decadeMap p.1 with
      | some j => if p.2 > 0 then Function.update v (temporalIdx j) p.2 else v
      | none => v) v2

/-- The liked-song centroid blend (vector_engine.py lines 333-337):
`v[i] += song_vec[i] / n * 0.3` for every liked vector. -/
noncomputable def centroid_blend (n : ℕ) (v : Vec) (l : List Vec) : Vec :=
  l.foldl (fun acc sv => fun i => acc i + sv i / n * 0.3) v

/-- Profile before the source-affinity step (everything up to line 337). -/
noncomputable def profile_core (T : EncoderTables)
    (genre_prefs artist_prefs decade_prefs : List (String × ℝ))
    (liked : List Vec) : Vec :=
  if liked.isEmpty then prefs_profile T genre_prefs artist_prefs decade_prefs
  else centroid_blend liked.length
    (prefs_profile T genre_prefs artist_prefs decade_prefs) liked

/-- The source-affinity step as the code writes it (lines 341-342):
`v[112] = 0.4; v[113] = 0.3` — plain assignments. -/
noncomputable def apply_source_bias (v : Vec) : Vec :=
  Function.update (Function.update v (112 : Fin 128) 0.4) (113 : Fin 128) 0.3

/-- build_user_profile (vector_engine.py lines 295-344).  The caller in
discovery.py passes `liked_song_vectors if liked_song_vectors else None`;
both `None` and the empty list are falsy at line 333, so the argument is a
plain list with `[]` for the no-vectors case. -/
noncomputable def build_user_profile (T : EncoderTables)
    (genre_prefs artist_prefs decade_prefs : List (String × ℝ))
    (liked : List Vec) : Vec :=
  apply_source_bias (profile_core T genre_prefs artist_prefs decade_prefs liked)

/-- The source-affinity step as the spec describes it, for comparison:
"adds a constant small bias toward library and similar sources" on top of
all other contributions. -/
noncomputable def claimed_source_bias (v : Vec) : Vec :=
  fun i =>
    if i = (112 : Fin 128) then v i + 0.4
    else if i = (113 : Fin 128) then v i + 0.3
    else v i

/-! ## Scoring and selection (src/services/vector_engine.py lines 351-409) -/

structure SongCandidate where
  video_id : String
  title : String
  artist : String
  source : String
  vector : Vec
  duration_seconds : Option Int := none
  year : Option Int := none
  genres : List String := []
  popularity : ℝ := 0.5

/-- Stable insertion into a descending-sorted list: an element inserted
from the left goes before every strictly smaller score and stays before
equal scores, reproducing the stable descending `list.sort(key=score,
reverse=True)` of the source. -/
noncomputable def insertDesc (x : SongCandidate × ℝ) :
    List (SongCandidate × ℝ) → List (SongCandidate × ℝ)
  | [] => [x]
  | y :: ys => if x.2 ≥ y.2 then x :: y :: ys else y :: insertDesc x ys

/-- Stable descending sort by score. -/
noncomputable def sortDesc : List (SongCandidate × ℝ) → List (SongCandidate × ℝ)
  | [] => []
  | x :: xs => insertDesc x (sortDesc xs)

/-- score_candidates (vector_engine.py lines 351-373): cosine similarity of
the normalized profile against each normalized candidate vector, plus
exploration noise `random.random() * temperature` (the draws are the
`noise` stream, indexed in candidate order), sorted descending. -/
noncomputable def score_candidates (user_vector : Vec)
    (candidates : List SongCandidate) (temperature : ℝ) (noise : ℕ → ℝ) :
    List (SongCandidate × ℝ) :=
  let user_norm := normalize user_vector
  sortDesc (candidates.enum.map
    (fun p => (p.2, cosine_similarity user_norm (normalize p.2.vector)
      + noise p.1 * temperature)))

/-- The cumulative-probability walk of softmax_select (lines 402-407):
`cumulative += prob; if r <= cumulative: return candidate`. -/
noncomputable def softmax_walk (r : ℝ) :
    List ((SongCandidate × ℝ) × ℝ) → ℝ → Option SongCandidate
  | [], _ => none
  | (p, prob) :: rest, cum =>
      if r ≤ cum + prob then some p.1 else softmax_walk r rest (cum + prob)

/-- softmax_select (vector_engine.py lines 376-409). -/
noncomputable def softmax_select (scored : List (SongCandidate × ℝ))
    (top_k : ℕ) (temperature : ℝ) (r : ℝ) : Option SongCandidate :=
  match scored.take top_k with
  | [] => none
  | [x] => some x.1
  | x :: y :: rest =>
      let top := x :: y :: rest
      let max_score := top.foldl (fun m p => max m p.2) x.2
      let temp := max temperature 0.01
      let exps := top.map (fun p => Real.exp ((p.2 - max_score) / temp))
      let total := exps.sum
      let probs := exps.map (fun e => e / total)
      match softmax_walk r (top.zip probs) 0 with
      | some c => some c
      | none => (top.getLast?).map Prod.fst

/-! ## Discovery engine (src/services/discovery.py lines 96-331)

`get_next_song` is embedded as a function of the tracker state, the call
arguments and an environment holding every external input of one call:
the two cooldown queries, the four candidate-pool results (an
`Except.error` slot is a pool coroutine that raised — `asyncio.gather(...,
return_exceptions=True)` hands the exception back as a value), the user
profile vector built by `_build_user_vector`, the random draws, and the
`get_track_info` duration backfill. -/

structure DiscoveredSong where
  video_id : String
  title : String
  artist : String
  strategy : String
  reason : String
  for_user_id : Int
  duration_seconds : Option Int
  genre : Option String
  year : Option Int
  score : ℝ

structure DiscoveryEnv where
  recentWindow : List String
  recentByCount : List String
  poolLibrary : Except Unit (List SongCandidate)
  poolSimilar : Except Unit (List SongCandidate)
  poolArtist : Except Unit (List SongCandidate)
  poolWildcard : Except Unit (List SongCandidate)
  userVector : Vec
  scoreNoise : ℕ → ℝ
  selectDraw : ℝ
  trackInfoDuration : String → Option Int

/-- DEFAULT_WEIGHTS (discovery.py line 105), in source dict order. -/
def DEFAULT_WEIGHTS : List (String × Int) :=
  [("similar", 25), ("artist", 25), ("wildcard", 25), ("library", 25)]

/-- `weights.get(key, 0)`. -/
def weightVal (w : List (String × Int)) (k : String) : Int :=
  (w.lookup k).getD 0

/-- Weight handling of get_next_song (discovery.py lines 158-160):
`weights = weights or self.DEFAULT_WEIGHTS` (both `None` and the empty
dict are falsy) followed by `if "library" not in weights: weights =
self.DEFAULT_WEIGHTS`. -/
def resolveWeights (w : Option (List (String × Int))) : List (String × Int) :=
  let w1 := match w with
    | none => DEFAULT_WEIGHTS
    | some l => if l.isEmpty then DEFAULT_WEIGHTS else l
  if (w1.lookup "library").isNone then DEFAULT_WEIGHTS else w1

/-- The pool tasks scheduled by _gather_all_candidates (discovery.py lines
302-311), in source order, gated by `weights.get(src, 0) > 0`. -/
def selectedPools (env : DiscoveryEnv) (w : List (String × Int)) :
    List (Except Unit (List SongCandidate)) :=
  (if weightVal w "library" > 0 then [env.poolLibrary] else [])
    ++ (if weightVal w "similar" > 0 then [env.poolSimilar] else [])
    ++ (if weightVal w "artist" > 0 then [env.poolArtist] else [])
    ++ (if weightVal w "wildcard" > 0 then [env.poolWildcard] else [])

/-- The result loop of _gather_all_candidates (lines 316-321): exceptions
are logged and skipped, list results are concatenated. -/
def collectOk (rs : List (Except Unit (List SongCandidate))) : List SongCandidate :=
  rs.foldl (fun acc r => match r with | .ok l => acc ++ l | .error _ => acc) []

/-- The dedup pass of _gather_all_candidates (lines 323-331): keep the
first occurrence of each video id, drop ids in the cooldown set. -/
def dedup_candidates (recent : List String) (seen : List String) :
    List SongCandidate → List SongCandidate
  | [] => []
  | c :: rest =>
      if c.video_id ∈ seen ∨ c.video_id ∈ recent then
        dedup_candidates recent seen rest
      else c :: dedup_candidates recent (c.video_id :: seen) rest

/-- _gather_all_candidates (discovery.py lines 286-331). -/
def gather_all_candidates (env : DiscoveryEnv) (recent : List String)
    (w : List (String × Int)) : List SongCandidate :=
  dedup_candidates recent [] (collectOk (selectedPools env w))

/-- _generate_reason (discovery.py lines 512-520). -/
def generate_reason (c : SongCandidate) : String :=
  if c.source = "similar" then "Similar to songs you like"
  else if c.source = "artist" then "From artist you enjoy: " ++ c.artist
  else if c.source = "wildcard" then "Popular track you might like"
  else if c.source = "library" then "From your saved library"
  else "Discovered for you"

/-- get_next_song (discovery.py lines 130-238).  Returns the new tracker
state for the guild together with the selection; the source mutates
`self.turn_tracker` in place and returns only the selection.  `if not
turn_user_id` also treats a user id of 0 as "no turn" (Python falsiness).
No case raises: pool exceptions arrive as data and are swallowed at the
gather step. -/
noncomputable def get_next_song (tracker : Option TTEntry)
    (voice_member_ids : List Int) (weights : Option (List (String × Int)))
    (env : DiscoveryEnv) : Option TTEntry × Option DiscoveredSong :=
  if voice_member_ids.isEmpty then (tracker, none)
  else
    let t1 := update_members tracker voice_member_ids
    match get_current_user t1 with
    | none => (t1, none)
    | some turn_user =>
      if turn_user = 0 then (t1, none)
      else
        let w := resolveWeights weights
        let recent := env.recentWindow ++ env.recentByCount
        let candidates := gather_all_candidates env recent w
        if candidates.isEmpty then (advance t1, none)
        else
          let scored := score_candidates env.userVector candidates 0.15 env.scoreNoise
          let winner? := softmax_select scored 8 0.5 env.selectDraw
          let t2 := advance t1
          match winner? with
          | none => (t2, none)
          | some winner =>
              let dur := match winner.duration_seconds with
                | some d => some d
                | none => match env.trackInfoDuration winner.video_id with
                  | some d => if d = 0 then none else some d
                  | none => none
              let winner_score :=
                ((scored.find? (fun p => p.1.video_id == winner.video_id)).map
                  (fun p => p.2)).getD 0
              (t2, some {
                video_id := winner.video_id
                title := winner.title
                artist := winner.artist
                strategy := winner.source
                reason := generate_reason winner
                for_user_id := turn_user
                duration_seconds := dur
                genre := winner.genres.head?
                year := winner.year
                score := winner_score })

/-! ## Playback loop iteration (src/cogs/music.py lines 613-846)

One iteration of `_play_loop` after an item has been obtained:
`player.current = item` (line 657), stream resolution (line 780, `continue`
on failure at 781-783), then the play block (lines 792-840): on an
exception the handler at 838-840 logs and `continue`s — skipping the
`player.current = None` at line 842, which only runs on the success path.
The completion wait at line 815 is a bare `await play_complete.wait()`:
it returns exactly when the `after_play` callback fires and has no timeout,
so an iteration whose completion event never fires blocks forever.
`eventFiresAt` is the wall-clock second at which `after_play` sets the
event (`none` = never). -/

structure QueueItem where
  video_id : String
  title : String
  artist : String
  url : Option String := none
  requester_id : Option Int := none
  discovery_source : String := "user_request"
  duration_seconds : Option Int := none
  genre : Option String := none
  year : Option Int := none
  deriving Repr, DecidableEq

structure PlayEnv where
  streamUrl : Option String
  playRaises : Bool
  eventFiresAt : Option ℕ
  deriving Repr, DecidableEq

structure IterResult where
  blocked : Bool
  currentAfter : Option QueueItem
  forcedStopInvoked : Bool
  raisedOut : Bool
  deriving Repr, DecidableEq

/-- One `_play_loop` iteration from line 657 on, for a dequeued `item`.
`blocked` — the iteration never completes (the bare completion wait never
returns); `currentAfter` — `player.current` at the end of the iteration
(or while it is blocked); `forcedStopInvoked` — a forced stop of the
source issued by the loop because a wait timed out (no such code path
exists); `raisedOut` — an exception escaped the iteration body. -/
def play_iteration (item : QueueItem) (env : PlayEnv) : IterResult :=
  match env.streamUrl with
  | none => ⟨false, some item, false, false⟩
  | some _ =>
      if env.playRaises then ⟨false, some item, false, false⟩
      else match env.eventFiresAt with
        | some _ => ⟨false, none, false, false⟩
        | none => ⟨true, some item, false, false⟩

/-! ## Idle sweep (src/cogs/music.py lines 1046-1058)

`_idle_check_loop` runs every 60 s over all players; for a connected
player it disconnects when `not player.is_playing and (now -
player.last_activity).seconds > 300` (IDLE_TIMEOUT, line 177).  The source
reads `timedelta.seconds` — the within-day component — so the elapsed
whole seconds are reduced mod 86400.  There is no other action: no field
of `GuildPlayer` (music.py lines 39-54) holds a health-check timestamp and
no branch of the sweep stops a playing player or clears `is_playing`. -/

structure SweepPlayer where
  connected : Bool
  is_playing : Bool
  idleElapsed : ℕ
  deriving Repr, DecidableEq

def idle_sweep_step (p : SweepPlayer) : SweepPlayer :=
  if p.connected = true ∧ p.is_playing = false ∧ p.idleElapsed % 86400 > 300 then
    { p with connected := false }
  else p

/-! ## The per-guild queue (src/cogs/music.py line 44, src/cogs/play.py
lines 201 and 317)

`GuildPlayer.queue` is created by `field(default_factory=asyncio.Queue)`:
a plain `asyncio.Queue`.  Its attribute set (public API plus the CPython
internals) is fixed by the standard library.  The play cog nevertheless
calls `player.queue.put_at_front(item)` for direct song requests. -/

def asyncioQueueMethods : List String :=
  ["maxsize", "empty", "full", "qsize", "put", "put_nowait", "get",
   "get_nowait", "task_done", "join", "_queue", "_getters", "_putters",
   "_unfinished_tasks", "_finished", "_maxsize", "_init", "_get", "_put",
   "_wakeup_next", "_get_loop", "_format"]

/-- The attribute the play cog looks up on the queue for a priority front
insert (play.py lines 201 and 317). -/
def play_cog_front_insert : String := "put_at_front"

/-- The FIFO operations `GuildPlayer.queue` actually has:
`put` appends at the tail, `get_nowait` pops the head or raises
`QueueEmpty`. -/
structure AsyncQueue where
  items : List QueueItem
  deriving Repr, DecidableEq

def AsyncQueue.put (q : AsyncQueue) (x : QueueItem) : AsyncQueue :=
  ⟨q.items ++ [x]⟩

def AsyncQueue.get_nowait (q : AsyncQueue) : Except Unit (QueueItem × AsyncQueue) :=
  match q.items with
  | [] => .error ()
  | x :: rest => .ok (x, ⟨rest⟩)

/-- Concrete discovery environment in which every pool raised. -/
noncomputable def c1Env : DiscoveryEnv where
  recentWindow := []
  recentByCount := []
  poolLibrary := .error ()
  poolSimilar := .error ()
  poolArtist := .error ()
  poolWildcard := .error ()
  userVector := zero_vector
  scoreNoise := fun _ => 0
  selectDraw := 0
  trackInfoDuration := fun _ => none

/-- Concrete candidate and environment for the C6 witness: the library
pool returns one candidate, the other pools are empty. -/
noncomputable def c6Cand : SongCandidate where
  video_id := "vid1"
  title := "t"
  artist := "a"
  source := "library"
  vector := zero_vector
  duration_seconds := some 200

noncomputable def c6Env : DiscoveryEnv where
  recentWindow := []
  recentByCount := []
  poolLibrary := .ok [c6Cand]
  poolSimilar := .ok []
  poolArtist := .ok []
  poolWildcard := .ok []
  userVector := zero_vector
  scoreNoise := fun _ => 0
  selectDraw := 0
  trackInfoDuration := fun _ => none

noncomputable def c6Score : ℝ :=
  cosine_similarity (normalize c6Env.userVector) (normalize c6Cand.vector)
    + c6Env.scoreNoise 0 * 0.15

noncomputable def c6Result : DiscoveredSong where
  video_id := "vid1"
  title := "t"
  artist := "a"
  strategy := "library"
  reason := "From your saved library"
  for_user_id := 1
  duration_seconds := some 200
  genre := none
  year := none
  score := c6Score

noncomputable def c10Env : DiscoveryEnv where
  recentWindow := []
  recentByCount := []
  poolLibrary := .ok []
  poolSimilar := .ok []
  poolArtist := .ok []
  poolWildcard := .ok []
  userVector := zero_vector
  scoreNoise := fun _ => 0
  selectDraw := 0
  trackInfoDuration := fun _ => none

/-- Concrete inputs for refuting claim C2: a 180-second item whose
completion event never fires. -/
def c2Item : QueueItem where
  video_id := "v2"
  title := "t2"
  artist := "a2"
  duration_seconds := some 180

def c2Env : PlayEnv where
  streamUrl := some "http"
  playRaises := false
  eventFiresAt := none

def c5Item : QueueItem where
  video_id := "v5"
  title := "t5"
  artist := "a5"

def c5Env : PlayEnv where
  streamUrl := some "u"
  playRaises := true
  eventFiresAt := none

/-- A unit basis vector, used to instantiate C8. -/
noncomputable def unit_vec : Vec := fun i => if i = (0 : Fin 128) then 1 else 0

/-- A non-zero vector whose magnitude `1e-10` is below the `1e-9` guard. -/
noncomputable def tiny_vec : Vec :=
  fun i => if i = (0 : Fin 128) then 1 / 10000000000 else 0

/-- Trivial encoder tables for concrete C9 inputs (the preference maps in
those inputs are empty, so the tables are never consulted). -/
noncomputable def c9Tables : EncoderTables where
  genreDim := fun _ => 0
  genreMult := fun _ => 1
  artistDims := fun _ => []

/-- A liked-song vector with weight 1 on the library source-affinity slot,
as `encode_song(..., source="library")` produces at dimension 112. -/
noncomputable def liked_lib_vec : Vec :=
  fun i => if i = (112 : Fin 128) then 1 else 0

theorem appendNew_eq_of_nodup (ids : List Int) (h : ids.Nodup) :
    ∀ base, appendNew base ids = base ++ ids.filter (fun m => decide (m ∉ base)) := by
  induction ids with
  | nil => intro base; simp [appendNew]
  | cons m ms ih =>
      intro base
      rcases List.nodup_cons.mp h with ⟨hm, hms⟩
      by_cases hb : m ∈ base
      · simp only [appendNew, List.foldl_cons, if_pos hb]
        have := ih hms base
        simp only [appendNew] at this
        simp [this, List.filter_cons, hb]
      · simp only [appendNew, List.foldl_cons, if_neg hb]
        have := ih hms (base ++ [m])
        simp only [appendNew] at this
        rw [this]
        have hfil : ms.filter (fun x => decide (x ∉ base ++ [m]))
            = ms.filter (fun x => decide (x ∉ base)) := by
          apply List.filter_congr
          intro x hx
          have hxm : x ≠ m := fun hxe => hm (hxe ▸ hx)
          simp [List.mem_append, hxm]
        rw [hfil]
        simp [List.filter_cons, hb]

theorem mem_appendNew_of_mem_base {base ids : List Int} {x : Int}
    (hx : x ∈ base) : x ∈ appendNew base ids := by
  induction ids generalizing base with
  | nil => simpa [appendNew] using hx
  | cons m ms ih =>
      simp only [appendNew, List.foldl_cons]
      by_cases hb : m ∈ base
      · rw [if_pos hb]; exact ih hx
      · rw [if_neg hb]
        exact ih (by simp [hx])

theorem mem_appendNew_of_mem_ids {base ids : List Int} {x : Int}
    (hx : x ∈ ids) : x ∈ appendNew base ids := by
  induction ids generalizing base with
  | nil => cases hx
  | cons m ms ih =>
      simp only [appendNew, List.foldl_cons]
      rcases List.mem_cons.mp hx with rfl | hxs
      · by_cases hb : x ∈ base
        · rw [if_pos hb]; exact mem_appendNew_of_mem_base hb
        · rw [if_neg hb]
          exact mem_appendNew_of_mem_base (by simp)
      · by_cases hb : m ∈ base
        · rw [if_pos hb]; exact ih hxs
        · rw [if_neg hb]; exact ih hxs

theorem mem_appendNew {base ids : List Int} {x : Int}
    (hx : x ∈ appendNew base ids) : x ∈ base ∨ x ∈ ids := by
  induction ids generalizing base with
  | nil => exact Or.inl (by simpa [appendNew] using hx)
  | cons m ms ih =>
      simp only [appendNew, List.foldl_cons] at hx
      by_cases hb : m ∈ base
      · rw [if_pos hb] at hx
        rcases ih hx with h | h
        · exact Or.inl h
        · exact Or.inr (by simp [h])
      · rw [if_neg hb] at hx
        rcases ih hx with h | h
        · rcases List.mem_append.mp h with h' | h'
          · exact Or.inl h'
          · exact Or.inr (by simpa using Or.inl (List.mem_singleton.mp h'))
        · exact Or.inr (by simp [h])

/-- Every element of the updated member list was in the freshly supplied
`ids` or survived the filter (hence is in `ids` too). -/
theorem mem_updateList {current ids : List Int} {x : Int}
    (hx : x ∈ updateList current ids) : x ∈ ids := by
  rcases mem_appendNew hx with h | h
  · have := List.of_mem_filter h
    simpa using this
  · exact h

/-- The updated member list is non-empty whenever `ids` is. -/
theorem updateList_ne_nil (current : List Int) {ids : List Int} (h : ids ≠ []) :
    updateList current ids ≠ [] := by
  intro hnil
  rcases List.exists_mem_of_ne_nil ids h with ⟨m, hm⟩
  have : m ∈ updateList current ids := mem_appendNew_of_mem_ids hm
  rw [hnil] at this
  cases this

/-- `update_members` always yields a valid index when `ids` is non-empty
(this is the clamping of an index that pointed past the shrunk list:
the source resets it to 0, which is in range). -/
theorem update_members_valid (t : Option TTEntry) {ids : List Int}
    (h : ids ≠ []) : ttValid (update_members t ids) := by
  cases t with
  | none =>
      simp only [update_members, ttValid]
      intro _
      exact List.length_pos.mpr h
  | some e =>
      simp only [update_members, ttValid]
      intro _
      have hne := updateList_ne_nil e.members h
      have hlen : 0 < (updateList e.members ids).length := List.length_pos.mpr hne
      by_cases hge : e.index ≥ (updateList e.members ids).length
      · simpa [hge] using hlen
      · simpa [hge] using Nat.lt_of_not_le hge

/-- `update_members` preserves the invariant for arbitrary `ids`. -/
theorem update_members_preserves (t : Option TTEntry) (ids : List Int) :
    ttValid (update_members t ids) := by
  cases t with
  | none =>
      simp only [update_members, ttValid]
      intro h
      exact List.length_pos.mpr h
  | some e =>
      simp only [update_members, ttValid]
      intro h
      have hlen : 0 < (updateList e.members ids).length := List.length_pos.mpr h
      by_cases hge : e.index ≥ (updateList e.members ids).length
      · simpa [hge] using hlen
      · simpa [hge] using Nat.lt_of_not_le hge

/-- `advance` preserves the invariant. -/
theorem advance_preserves (t : Option TTEntry) : ttValid (advance t) := by
  cases t with
  | none => simp [advance, ttValid]
  | some e =>
      by_cases he : e.members.isEmpty
      · simp only [advance, if_pos he, ttValid]
        intro hne
        exact absurd (List.isEmpty_iff.mp he) hne
      · simp only [advance, if_neg he, ttValid]
        intro hne
        exact Nat.mod_lt _ (List.length_pos.mpr hne)

/-- A valid non-empty tracker has a current user. -/
theorem get_current_user_isSome {e : TTEntry} (hv : ttValid (some e))
    (hne : e.members ≠ []) : (get_current_user (some e)).isSome := by
  have hidx := hv hne
  have h2 : ¬ e.members.isEmpty := by
    simpa [List.isEmpty_iff] using hne
  simp only [get_current_user, if_neg h2]
  rw [List.get?_eq_getElem?, List.getElem?_eq_getElem hidx]
  rfl

/-- A current user returned for a freshly updated tracker is one of the
supplied member ids. -/
theorem get_current_user_mem {t : Option TTEntry} {ids : List Int} {u : Int}
    (h : get_current_user (update_members t ids) = some u) : u ∈ ids := by
  cases t with
  | none =>
      simp only [update_members, get_current_user] at h
      split at h
      · cases h
      · exact List.get?_mem h
  | some e =>
      simp only [update_members, get_current_user] at h
      split at h
      · cases h
      · exact mem_updateList (List.get?_mem h)

theorem magnitude_nonneg (v : Vec) : 0 ≤ magnitude v := Real.sqrt_nonneg _

theorem magnitude_sq (v : Vec) : magnitude v * magnitude v = ∑ i, v i * v i := by
  apply Real.mul_self_sqrt
  exact Finset.sum_nonneg fun i _ => mul_self_nonneg _

theorem magnitude_zero_vector : magnitude zero_vector = 0 := by
  simp [magnitude, zero_vector]

theorem centroid_blend_apply (l : List Vec) (n : ℕ) :
    ∀ (v : Vec) (i : Fin 128),
      centroid_blend n v l i = v i + (l.map fun sv => sv i).sum / n * 0.3 := by
  induction l with
  | nil => intro v i; simp [centroid_blend]
  | cons sv rest ih =>
      intro v i
      simp only [centroid_blend, List.foldl_cons] at *
      rw [ih]
      simp only [List.map_cons, List.sum_cons]
      ring

theorem mem_insertDesc {x z : SongCandidate × ℝ} :
    ∀ {l : List (SongCandidate × ℝ)}, z ∈ insertDesc x l → z = x ∨ z ∈ l := by
  intro l
  induction l with
  | nil => intro h; simpa [insertDesc] using h
  | cons y ys ih =>
      intro h
      simp only [insertDesc] at h
      split at h
      · rcases List.mem_cons.mp h with h' | h'
        · exact Or.inl h'
        · exact Or.inr h'
      · rcases List.mem_cons.mp h with h' | h'
        · exact Or.inr (List.mem_cons.mpr (Or.inl h'))
        · rcases ih h' with h'' | h''
          · exact Or.inl h''
          · exact Or.inr (List.mem_cons.mpr (Or.inr h''))

theorem mem_sortDesc {z : SongCandidate × ℝ} :
    ∀ {l : List (SongCandidate × ℝ)}, z ∈ sortDesc l → z ∈ l := by
  intro l
  induction l with
  | nil => intro h; simp [sortDesc] at h
  | cons x xs ih =>
      intro h
      simp only [sortDesc] at h
      rcases mem_insertDesc h with h' | h'
      · exact h' ▸ List.mem_cons_self _ _
      · exact List.mem_cons.mpr (Or.inr (ih h'))

/-- Every scored pair's candidate is one of the input candidates. -/
theorem score_candidates_mem {u : Vec} {cands : List SongCandidate}
    {t : ℝ} {noise : ℕ → ℝ} {p : SongCandidate × ℝ}
    (h : p ∈ score_candidates u cands t noise) : p.1 ∈ cands := by
  have h1 := mem_sortDesc h
  rcases List.mem_map.mp h1 with ⟨q, hq, hqe⟩
  have : q.2 ∈ cands := List.snd_mem_of_mem_enum hq
  rw [← hqe] at *
  simpa using this

theorem softmax_walk_mem {r : ℝ} {c : SongCandidate} :
    ∀ {pairs : List ((SongCandidate × ℝ) × ℝ)} {cum : ℝ},
      softmax_walk r pairs cum = some c → ∃ q ∈ pairs, q.1.1 = c := by
  intro pairs
  induction pairs with
  | nil => intro cum h; simp [softmax_walk] at h
  | cons q rest ih =>
      intro cum h
      simp only [softmax_walk] at h
      split at h
      · exact ⟨q, List.mem_cons_self _ _, by cases h; rfl⟩
      · rcases ih h with ⟨q', hq', hqe⟩
        exact ⟨q', List.mem_cons.mpr (Or.inr hq'), hqe⟩

/-- A selected winner is one of the scored candidates. -/
theorem softmax_select_mem {scored : List (SongCandidate × ℝ)} {k : ℕ}
    {t r : ℝ} {c : SongCandidate}
    (h : softmax_select scored k t r = some c) : ∃ s, (c, s) ∈ scored := by
  have hsub : ∀ p : SongCandidate × ℝ, p ∈ scored.take k → p ∈ scored :=
    fun p hp => List.take_subset k scored hp
  simp only [softmax_select] at h
  split at h
  · cases h
  · next x heq =>
      injection h with h'
      refine ⟨x.2, ?_⟩
      have hx : x ∈ scored.take k := by rw [heq]; exact List.mem_cons_self _ _
      have : (c, x.2) = x := by rw [← h']
      rw [this]
      exact hsub x hx
  · next x y rest heq =>
      split at h
      · next c' hw =>
          injection h with h'
          subst h'
          rcases softmax_walk_mem hw with ⟨q, hq, hqe⟩
          have hq1 : q.1 ∈ x :: y :: rest := (List.of_mem_zip hq).1
          refine ⟨q.1.2, ?_⟩
          have hmem : q.1 ∈ scored.take k := by rw [heq]; exact hq1
          have : (c', q.1.2) = q.1 := by rw [← hqe]
          rw [this]
          exact hsub _ hmem
      · next hw =>
          rcases Option.map_eq_some'.mp h with ⟨q, hql, hqe⟩
          rcases List.mem_getLast?_eq_getLast hql with ⟨hne, hq2⟩
          have hmem : q ∈ x :: y :: rest := by
            rw [hq2]; exact List.getLast_mem hne
          refine ⟨q.2, ?_⟩
          have hmem' : q ∈ scored.take k := by rw [heq]; exact hmem
          have : (c, q.2) = q := by rw [← hqe]
          rw [this]
          exact hsub _ hmem'

/-! ## Supporting lemmas for the discovery claims -/

theorem mem_ite_singleton {α : Type} {b : Prop} [Decidable b] {x r : α}
    (h : r ∈ if b then [x] else ([] : List α)) : r = x := by
  split at h
  · simpa using h
  · cases h

/-- Every scheduled pool task is one of the four pool slots of the
environment. -/
theorem mem_selectedPools {env : DiscoveryEnv} {w : List (String × Int)}
    {r : Except Unit (List SongCandidate)} (h : r ∈ selectedPools env w) :
    r = env.poolLibrary ∨ r = env.poolSimilar ∨ r = env.poolArtist ∨
      r = env.poolWildcard := by
  simp only [selectedPools, List.mem_append] at h
  rcases h with ((h | h) | h) | h
  · exact Or.inl (mem_ite_singleton h)
  · exact Or.inr (Or.inl (mem_ite_singleton h))
  · exact Or.inr (Or.inr (Or.inl (mem_ite_singleton h)))
  · exact Or.inr (Or.inr (Or.inr (mem_ite_singleton h)))

theorem collectOk_acc (rs : List (Except Unit (List SongCandidate)))
    (h : ∀ r ∈ rs, r = .error () ∨ r = .ok []) :
    ∀ acc, rs.foldl (fun acc r => match r with
      | .ok l => acc ++ l | .error _ => acc) acc = acc := by
  induction rs with
  | nil => intro acc; rfl
  | cons r rest ih =>
      intro acc
      have hr := h r (List.mem_cons_self _ _)
      have hrest := fun r hm => h r (List.mem_cons.mpr (Or.inr hm))
      rcases hr with rfl | rfl
      · exact ih hrest acc
      · simpa using ih hrest acc

/-- When every gathered pool raised or returned no candidates, the
collected candidate list is empty. -/
theorem collectOk_nil {rs : List (Except Unit (List SongCandidate))}
    (h : ∀ r ∈ rs, r = .error () ∨ r = .ok []) : collectOk rs = [] :=
  collectOk_acc rs h []

/-- Soundness of the dedup pass: the surviving ids are pairwise distinct
and none of them is in the cooldown set or the already-seen set. -/
theorem dedup_candidates_sound (recent : List String) :
    ∀ (l : List SongCandidate) (seen : List String),
      ((dedup_candidates recent seen l).map (fun c => c.video_id)).Nodup
      ∧ ∀ c ∈ dedup_candidates recent seen l,
          c.video_id ∉ recent ∧ c.video_id ∉ seen := by
  intro l
  induction l with
  | nil => intro seen; exact ⟨List.nodup_nil, by intro c hc; cases hc⟩
  | cons c rest ih =>
      intro seen
      by_cases hskip : c.video_id ∈ seen ∨ c.video_id ∈ recent
      · simp only [dedup_candidates, if_pos hskip]
        exact ih seen
      · simp only [dedup_candidates, if_neg hskip]
        push_neg at hskip
        obtain ⟨hseen, hrecent⟩ := hskip
        obtain ⟨ihnodup, ihmem⟩ := ih (c.video_id :: seen)
        constructor
        · simp only [List.map_cons, List.nodup_cons]
          refine ⟨?_, ihnodup⟩
          intro hmem
          rcases List.mem_map.mp hmem with ⟨c', hc', hce⟩
          have := (ihmem c' hc').2
          rw [hce] at this
          exact this (List.mem_cons_self _ _)
        · intro c' hc'
          rcases List.mem_cons.mp hc' with rfl | hc'
          · exact ⟨hrecent, hseen⟩
          · obtain ⟨h1, h2⟩ := ihmem c' hc'
            exact ⟨h1, fun hm => h2 (List.mem_cons.mpr (Or.inr hm))⟩

/-- When every one of the four pool slots raised or was empty, the whole
gather yields no candidates, whatever the weights. -/
theorem gather_all_candidates_nil {env : DiscoveryEnv} (recent : List String)
    (w : List (String × Int))
    (hlib : env.poolLibrary = .error () ∨ env.poolLibrary = .ok [])
    (hsim : env.poolSimilar = .error () ∨ env.poolSimilar = .ok [])
    (hart : env.poolArtist = .error () ∨ env.poolArtist = .ok [])
    (hwild : env.poolWildcard = .error () ∨ env.poolWildcard = .ok []) :
    gather_all_candidates env recent w = [] := by
  have hall : ∀ r ∈ selectedPools env w, r = .error () ∨ r = .ok [] := by
    intro r hr
    rcases mem_selectedPools hr with rfl | rfl | rfl | rfl
    · exact hlib
    · exact hsim
    · exact hart
    · exact hwild
  simp [gather_all_candidates, collectOk_nil hall, dedup_candidates]

/-- `update_members` never removes the guild entry. -/
theorem update_members_isSome (t : Option TTEntry) (ids : List Int) :
    ∃ e, update_members t ids = some e := by
  cases t <;> exact ⟨_, rfl⟩

/-- The updated entry has a non-empty member list when `ids` is non-empty. -/
theorem update_members_members_ne_nil {t : Option TTEntry} {ids : List Int}
    {e : TTEntry} (he : update_members t ids = some e) (hne : ids ≠ []) :
    e.members ≠ [] := by
  cases t with
  | none =>
      simp only [update_members] at he
      cases he
      exact hne
  | some e' =>
      simp only [update_members] at he
      cases he
      exact updateList_ne_nil _ hne

/-- Claim C1 — when every candidate pool raises (the exception is handed
back by `asyncio.gather(..., return_exceptions=True)`) or returns no
candidates, `get_next_song` returns the no-selection result without
propagating any exception, and the guild's turn pointer is still advanced
by one position.  The embedding is a total function, so the conclusion's
shape already rules out propagation; the hypothesis `0 ∉ ids` records
that Discord member ids are non-zero (a turn user id of 0 would be falsy
at discovery.py line 154). -/
theorem C1_all_pools_fail (tracker : Option TTEntry) (ids : List Int)
    (w : Option (List (String × Int))) (env : DiscoveryEnv)
    (hne : ids ≠ []) (h0 : (0 : Int) ∉ ids)
    (hlib : env.poolLibrary = .error () ∨ env.poolLibrary = .ok [])
    (hsim : env.poolSimilar = .error () ∨ env.poolSimilar = .ok [])
    (hart : env.poolArtist = .error () ∨ env.poolArtist = .ok [])
    (hwild : env.poolWildcard = .error () ∨ env.poolWildcard = .ok []) :
    get_next_song tracker ids w env =
      (advance (update_members tracker ids), none) := by
  have hnemp : ¬ ids.isEmpty := by simpa [List.isEmpty_iff] using hne
  obtain ⟨e, he⟩ := update_members_isSome tracker ids
  have hval : ttValid (update_members tracker ids) := update_members_valid tracker hne
  rw [he] at hval
  have hmemne : e.members ≠ [] := update_members_members_ne_nil he hne
  have hsome : (get_current_user (some e)).isSome :=
    get_current_user_isSome hval hmemne
  obtain ⟨u, hu⟩ := Option.isSome_iff_exists.mp hsome
  have humem : u ∈ ids := by
    apply get_current_user_mem (t := tracker)
    rw [he]
    exact hu
  have hu0 : ¬ (u = 0) := fun h => h0 (h ▸ humem)
  have hgather := gather_all_candidates_nil
    (env.recentWindow ++ env.recentByCount) (resolveWeights w)
    hlib hsim hart hwild
  simp [get_next_song, hnemp, he, hu, hu0, hgather]

theorem C1_all_pools_fail_witness :
    ([1] ≠ ([] : List Int)) ∧ ((0 : Int) ∉ [(1 : Int)]) ∧
      get_next_song none [1] none c1Env =
        (advance (update_members none [1]), none) :=
  ⟨by decide, by decide,
    C1_all_pools_fail none [1] none c1Env (by decide) (by decide)
      (Or.inl rfl) (Or.inl rfl) (Or.inl rfl) (Or.inl rfl)⟩

/-- Claim C6 — whenever `get_next_song` returns an item, the item's id is
not in the supplied cooldown set (the union of the `cooldown_seconds`
window and the last-20 plays), and the candidate list that was scored
contains no duplicate ids across pools. -/
theorem C6_winner_respects_cooldown (tracker : Option TTEntry)
    (ids : List Int) (w : Option (List (String × Int))) (env : DiscoveryEnv)
    (t' : Option TTEntry) (d : DiscoveredSong)
    (h : get_next_song tracker ids w env = (t', some d)) :
    d.video_id ∉ env.recentWindow ++ env.recentByCount
    ∧ ((gather_all_candidates env (env.recentWindow ++ env.recentByCount)
        (resolveWeights w)).map (fun c => c.video_id)).Nodup := by
  have hsound := dedup_candidates_sound
    (env.recentWindow ++ env.recentByCount)
    (collectOk (selectedPools env (resolveWeights w))) []
  refine ⟨?_, hsound.1⟩
  simp only [get_next_song] at h
  split at h
  · exact absurd (congrArg Prod.snd h) (by simp)
  · split at h
    · exact absurd (congrArg Prod.snd h) (by simp)
    · next u =>
        split at h
        · exact absurd (congrArg Prod.snd h) (by simp)
        · split at h
          · exact absurd (congrArg Prod.snd h) (by simp)
          · split at h
            · exact absurd (congrArg Prod.snd h) (by simp)
            · next winner hwin =>
                have hd : d.video_id = winner.video_id := by
                  have := congrArg Prod.snd h
                  simp only at this
                  cases this
                  rfl
                obtain ⟨s, hs⟩ := softmax_select_mem hwin
                have hcand : winner ∈ gather_all_candidates env
                    (env.recentWindow ++ env.recentByCount)
                    (resolveWeights w) :=
                  score_candidates_mem (p := (winner, s)) hs
                rw [hd]
                exact (hsound.2 winner hcand).1

theorem C6_winner_respects_cooldown_witness :
    get_next_song none [1] none c6Env =
      (advance (update_members none [1]), some c6Result)
    ∧ c6Result.video_id ∉ c6Env.recentWindow ++ c6Env.recentByCount
    ∧ ((gather_all_candidates c6Env
        (c6Env.recentWindow ++ c6Env.recentByCount)
        (resolveWeights none)).map (fun c => c.video_id)).Nodup := by
  have h : get_next_song none [1] none c6Env =
      (advance (update_members none [1]), some c6Result) := rfl
  exact ⟨h, (C6_winner_respects_cooldown none [1] none c6Env _ _ h).1,
    (C6_winner_respects_cooldown none [1] none c6Env _ _ h).2⟩

/-- Claim C10 — a supplied weights dict without a "library" key is
discarded wholesale: `resolveWeights` falls back to DEFAULT_WEIGHTS
(discovery.py lines 158-160), whose four entries are all 25, so all four
pools are scheduled even when the caller set some of the supplied source
weights to 0. -/
theorem C10_weights_without_library_replaced (l : List (String × Int))
    (env : DiscoveryEnv) (hl : l.lookup "library" = none) :
    resolveWeights (some l) = DEFAULT_WEIGHTS
    ∧ selectedPools env (resolveWeights (some l)) =
        [env.poolLibrary, env.poolSimilar, env.poolArtist, env.poolWildcard] := by
  have h1 : resolveWeights (some l) = DEFAULT_WEIGHTS := by
    simp only [resolveWeights]
    by_cases he : l.isEmpty
    · simp [he, DEFAULT_WEIGHTS]
    · simp [he, hl]
  refine ⟨h1, ?_⟩
  rw [h1]
  rfl

theorem C10_weights_without_library_replaced_witness :
    ([("similar", (0 : Int))].lookup "library" = none)
    ∧ resolveWeights (some [("similar", 0)]) = DEFAULT_WEIGHTS
    ∧ selectedPools c10Env (resolveWeights (some [("similar", 0)])) =
        [c10Env.poolLibrary, c10Env.poolSimilar, c10Env.poolArtist,
         c10Env.poolWildcard] :=
  ⟨by decide,
    (C10_weights_without_library_replaced [("similar", 0)] c10Env (by decide)).1,
    (C10_weights_without_library_replaced [("similar", 0)] c10Env (by decide)).2⟩

/-- Claim C7 — TurnTracker invariants: with no duplicate member ids an
update keeps survivors in their original relative order (they are exactly
the filter of the old list) and appends newcomers at the end (the filter
of the new ids not previously present); the index stays valid after any
update with a non-empty member list and after any advance; an index that
pointed past the shrunk list is reset to 0; and with members [1,2,3]
three advances cycle the current user back to the first member. -/
theorem C7_turn_tracker (cur ids : List Int) (t : Option TTEntry)
    (e : TTEntry) (hnd : ids.Nodup) (hne : ids ≠ []) :
    updateList cur ids
      = cur.filter (fun m => decide (m ∈ ids))
          ++ ids.filter (fun m => decide (m ∉ cur))
    ∧ ttValid (update_members t ids)
    ∧ ttValid (advance t)
    ∧ (e.index ≥ (updateList e.members ids).length →
        update_members (some e) ids = some ⟨updateList e.members ids, 0⟩)
    ∧ get_current_user
        (advance (advance (advance (update_members none [1, 2, 3])))) = some 1 := by
  refine ⟨?_, update_members_valid t hne, advance_preserves t, ?_, by decide⟩
  · rw [updateList, appendNew_eq_of_nodup ids hnd]
    congr 1
    apply List.filter_congr
    intro m hm
    by_cases hc : m ∈ cur
    · simp [hc, hm]
    · simp [hc, hm]
  · intro hge
    simp [update_members, hge]

theorem C7_turn_tracker_witness :
    ([2, 4] : List Int).Nodup ∧ ([2, 4] : List Int) ≠ []
    ∧ (⟨[1, 2, 3], 2⟩ : TTEntry).index ≥ (updateList [1, 2, 3] [2, 4]).length
    ∧ updateList [1, 2, 3] [2, 4]
        = ([1, 2, 3] : List Int).filter (fun m => decide (m ∈ ([2, 4] : List Int)))
            ++ ([2, 4] : List Int).filter (fun m => decide (m ∉ ([1, 2, 3] : List Int)))
    ∧ ttValid (update_members (some ⟨[1, 2, 3], 2⟩) [2, 4])
    ∧ ttValid (advance (some ⟨[1, 2, 3], 2⟩))
    ∧ update_members (some ⟨[1, 2, 3], 2⟩) [2, 4]
        = some ⟨updateList [1, 2, 3] [2, 4], 0⟩
    ∧ get_current_user
        (advance (advance (advance (update_members none [1, 2, 3])))) = some 1 := by
  have h := C7_turn_tracker [1, 2, 3] [2, 4] (some ⟨[1, 2, 3], 2⟩)
    ⟨[1, 2, 3], 2⟩ (by decide) (by decide)
  exact ⟨by decide, by decide, by decide, h.1, h.2.1, h.2.2.1,
    h.2.2.2.1 (by decide), h.2.2.2.2⟩

/-- Claim C2 (amended) — the playback loop waits on the completion event
with NO timeout: the play phase blocks forever exactly when the stream
resolved, the play call did not raise, and the completion event never
fires; and no outcome of an iteration ever includes a forced stop of the
source (no timeout-triggered `voice_client.stop()` path exists in
`_play_loop`, whose wait at music.py line 815 is a bare
`await play_complete.wait()`). -/
theorem C2_wait_has_no_timeout (item : QueueItem) (env : PlayEnv) :
    (play_iteration item env).forcedStopInvoked = false
    ∧ ((play_iteration item env).blocked = true ↔
        env.streamUrl.isSome = true ∧ env.playRaises = false
          ∧ env.eventFiresAt = none) := by
  rcases env with ⟨url, pr, ev⟩
  cases url <;> cases pr <;> cases ev <;> simp [play_iteration]

/-- Claim C2 as stated is false: with a known 180-second duration and a
completion event that never fires, the iteration neither forcibly stops
the source after duration-plus-buffer nor proceeds as if the song ended —
it blocks forever and no forced stop is ever invoked. -/
theorem C2_counterexample :
    play_iteration c2Item c2Env =
      { blocked := true, currentAfter := some c2Item,
        forcedStopInvoked := false, raisedOut := false }
    ∧ (play_iteration c2Item c2Env).forcedStopInvoked ≠ true
    ∧ (play_iteration c2Item c2Env).blocked = true := by
  refine ⟨rfl, by decide, rfl⟩

/-- Claim C3 (amended) — the periodic sweep never stops a playing player:
`_idle_check_loop` leaves `is_playing` unchanged for every player and does
nothing at all to a player with `is_playing = true`; its only action is
the idle disconnect of a non-playing player.  No health-check timestamp
exists on `GuildPlayer`. -/
theorem C3_sweep_never_stops_playing (p : SweepPlayer) :
    (idle_sweep_step p).is_playing = p.is_playing
    ∧ (p.is_playing = true → idle_sweep_step p = p)
    ∧ (idle_sweep_step p ≠ p →
        p.is_playing = false ∧ p.connected = true
          ∧ (idle_sweep_step p).connected = false) := by
  refine ⟨?_, ?_, ?_⟩
  · unfold idle_sweep_step
    split <;> rfl
  · intro hp
    unfold idle_sweep_step
    rw [if_neg]
    rintro ⟨-, h2, -⟩
    rw [hp] at h2
    cases h2
  · intro hne
    unfold idle_sweep_step at *
    split at hne
    · next hcond => simp_all
    · exact absurd rfl hne

theorem C3_sweep_never_stops_playing_witness :
    (⟨true, true, 10000000⟩ : SweepPlayer).is_playing = true
    ∧ idle_sweep_step ⟨true, true, 10000000⟩ = ⟨true, true, 10000000⟩ :=
  ⟨rfl, (C3_sweep_never_stops_playing ⟨true, true, 10000000⟩).2.1 rfl⟩

/-- Claim C3 as stated is false: a connected player with
`is_playing = true` and a last-activity timestamp over 115 days stale is
untouched by the sweep — playback is not stopped and the playing flag is
not cleared on any pass. -/
theorem C3_counterexample :
    idle_sweep_step ⟨true, true, 10000000⟩ = ⟨true, true, 10000000⟩
    ∧ (idle_sweep_step ⟨true, true, 10000000⟩).is_playing ≠ false := by
  refine ⟨?_, ?_⟩ <;> decide

/-- Claim C4 — the queue object every `GuildPlayer` holds is a plain
`asyncio.Queue` (music.py line 44); the standard library class has no
`put_at_front` attribute, so the front-insert call at play.py lines 201
and 317 raises `AttributeError` instead of performing a priority insert. -/
theorem C4_put_at_front_missing :
    play_cog_front_insert ∉ asyncioQueueMethods := by
  decide

/-- Claim C5 (amended) — an exception raised by the play step is caught
(music.py lines 838-840) and the loop continues with the next iteration,
but the `continue` skips `player.current = None` at line 842, so the
current-item slot still holds the failed item when the iteration ends. -/
theorem C5_play_exception_caught (item : QueueItem) (env : PlayEnv)
    (hurl : env.streamUrl.isSome = true) (hraise : env.playRaises = true) :
    play_iteration item env =
      { blocked := false, currentAfter := some item,
        forcedStopInvoked := false, raisedOut := false } := by
  rcases env with ⟨url, pr, ev⟩
  cases url with
  | none => cases hurl
  | some u =>
      simp only at hraise
      subst hraise
      simp [play_iteration]

theorem C5_play_exception_caught_witness :
    c5Env.streamUrl.isSome = true ∧ c5Env.playRaises = true
    ∧ play_iteration c5Item c5Env =
        { blocked := false, currentAfter := some c5Item,
          forcedStopInvoked := false, raisedOut := false } :=
  ⟨rfl, rfl, C5_play_exception_caught c5Item c5Env rfl rfl⟩

/-- Claim C5 as stated is false in its `current = None` part: when the
play step raises, the exception is caught and the loop continues, but the
current-item slot is NOT set to none — it still holds the failed item. -/
theorem C5_counterexample :
    (play_iteration c5Item c5Env).raisedOut = false
    ∧ (play_iteration c5Item c5Env).blocked = false
    ∧ (play_iteration c5Item c5Env).currentAfter = some c5Item
    ∧ some c5Item ≠ (none : Option QueueItem) := by
  refine ⟨rfl, rfl, rfl, by decide⟩

/-- Claim C8 (amended) — `cosine_similarity(v, v) = 1` for every vector
whose magnitude is at least the `1e-9` zero-guard threshold, and the
cosine of the zero vector against anything is exactly 0; the guard means
no division by zero is ever performed. -/
theorem C8_cosine_self_and_zero (v w : Vec)
    (hv : magnitude v ≥ 1 / 1000000000) :
    cosine_similarity v v = 1 ∧ cosine_similarity zero_vector w = 0 := by
  constructor
  · have hpos : (0 : ℝ) < magnitude v := lt_of_lt_of_le (by norm_num) hv
    have hS : magnitude v * magnitude v = ∑ i, v i * v i := magnitude_sq v
    have hSpos : (0 : ℝ) < ∑ i, v i * v i := by
      rw [← hS]; exact mul_pos hpos hpos
    have hguard : ¬ (magnitude v < 1 / 1000000000 ∨
        magnitude v < 1 / 1000000000) := by
      rw [or_self]; exact not_lt.mpr hv
    rw [cosine_similarity, if_neg hguard, ← hS]
    exact div_self (ne_of_gt (by rw [hS]; exact hSpos))
  · have hz : magnitude zero_vector < 1 / 1000000000 := by
      rw [magnitude_zero_vector]; norm_num
    rw [cosine_similarity, if_pos (Or.inl hz)]

theorem unit_vec_magnitude : magnitude unit_vec = 1 := by
  have hsum : (∑ i, unit_vec i * unit_vec i) = 1 := by
    rw [Finset.sum_eq_single (0 : Fin 128)]
    · simp [unit_vec]
    · intro b _ hb; simp [unit_vec, hb]
    · intro h; exact absurd (Finset.mem_univ _) h
  rw [magnitude, hsum, Real.sqrt_one]

theorem C8_cosine_self_and_zero_witness :
    magnitude unit_vec ≥ 1 / 1000000000
    ∧ cosine_similarity unit_vec unit_vec = 1
    ∧ cosine_similarity zero_vector zero_vector = 0 := by
  have hm : magnitude unit_vec ≥ 1 / 1000000000 := by
    rw [unit_vec_magnitude]; norm_num
  exact ⟨hm, (C8_cosine_self_and_zero unit_vec zero_vector hm).1,
    (C8_cosine_self_and_zero unit_vec zero_vector hm).2⟩

/-- Claim C8 as stated is false for the non-zero vector `tiny_vec` whose
single entry is `1e-10`: its magnitude falls under the `1e-9` guard, so
`cosine_similarity(tiny_vec, tiny_vec)` is 0, not approximately 1. -/
theorem C8_counterexample :
    tiny_vec ≠ zero_vector ∧ cosine_similarity tiny_vec tiny_vec = 0
      ∧ (0 : ℝ) ≠ 1 := by
  have hsum : (∑ i, tiny_vec i * tiny_vec i)
      = (1 / 10000000000 : ℝ) * (1 / 10000000000) := by
    rw [Finset.sum_eq_single (0 : Fin 128)]
    · simp [tiny_vec]
    · intro b _ hb; simp [tiny_vec, hb]
    · intro h; exact absurd (Finset.mem_univ _) h
  have hmag : magnitude tiny_vec = 1 / 10000000000 := by
    rw [magnitude, hsum,
      show (1 / 10000000000 : ℝ) * (1 / 10000000000)
        = (1 / 10000000000 : ℝ) ^ 2 by ring]
    exact Real.sqrt_sq (by norm_num)
  refine ⟨?_, ?_, by norm_num⟩
  · intro h
    have := congrFun h (0 : Fin 128)
    simp [tiny_vec, zero_vector] at this
  · rw [cosine_similarity, if_pos (Or.inl (by rw [hmag]; norm_num))]

/-- Pointwise view of the source-affinity assignments. -/
theorem apply_source_bias_apply (v : Vec) (i : Fin 128) :
    apply_source_bias v i
      = if i = (113 : Fin 128) then (0.3 : ℝ)
        else if i = (112 : Fin 128) then 0.4 else v i := by
  simp [apply_source_bias, Function.update_apply]

/-- Claim C9 (amended) — `build_user_profile` blends the centroid of the
liked vectors into every dimension at fixed 30% weight, but the two
source-affinity slots are then OVERWRITTEN with the constants 0.4 and 0.3
(vector_engine.py lines 341-342 are assignments, not additions); with
all-empty preference maps and no liked vectors the only non-zero entries
are those two slots. -/
theorem C9_profile_bias (T : EncoderTables) (gp ap dp : List (String × ℝ))
    (liked : List Vec) :
    build_user_profile T gp ap dp liked (112 : Fin 128) = 0.4
    ∧ build_user_profile T gp ap dp liked (113 : Fin 128) = 0.3
    ∧ (∀ i : Fin 128, i ≠ (112 : Fin 128) → i ≠ (113 : Fin 128) →
        build_user_profile T gp ap dp liked i = profile_core T gp ap dp liked i)
    ∧ (liked ≠ [] → ∀ i : Fin 128, profile_core T gp ap dp liked i
        = prefs_profile T gp ap dp i
          + (liked.map fun sv => sv i).sum / liked.length * 0.3)
    ∧ (∀ i : Fin 128, build_user_profile T [] [] [] [] i
        = if i = (112 : Fin 128) then 0.4
          else if i = (113 : Fin 128) then (0.3 : ℝ) else 0) := by
  refine ⟨?_, ?_, ?_, ?_, ?_⟩
  · rw [build_user_profile, apply_source_bias_apply, if_neg (by decide),
      if_pos rfl]
  · rw [build_user_profile, apply_source_bias_apply, if_pos rfl]
  · intro i h12 h13
    rw [build_user_profile, apply_source_bias_apply, if_neg h13, if_neg h12]
  · intro hne i
    have hemp : ¬ liked.isEmpty := by simpa [List.isEmpty_iff] using hne
    rw [profile_core, if_neg hemp, centroid_blend_apply]
  · intro i
    have hcore : profile_core T [] [] [] [] = prefs_profile T [] [] [] := by
      rw [profile_core]
      rfl
    rw [build_user_profile, apply_source_bias_apply, hcore]
    by_cases h13 : i = (113 : Fin 128)
    · subst h13
      rw [if_pos rfl, if_neg (by decide), if_pos rfl]
    · rw [if_neg h13]
      by_cases h12 : i = (112 : Fin 128)
      · subst h12
        rw [if_pos rfl, if_pos rfl]
      · rw [if_neg h12, if_neg h12, if_neg h13]
        rfl

/-- Claim C9 as stated is false in its "adds on top" part: with empty
preferences and one liked vector carrying 1.0 at the library slot, the
centroid contributes 0.3 there, so a bias ADDED on top (the spec's
`claimed_source_bias`) would give 0.7 — but the code overwrites the slot
with the constant 0.4. -/
theorem C9_counterexample :
    build_user_profile c9Tables [] [] [] [liked_lib_vec] (112 : Fin 128) = 0.4
    ∧ claimed_source_bias (profile_core c9Tables [] [] [] [liked_lib_vec])
        (112 : Fin 128) = 0.7
    ∧ (0.4 : ℝ) ≠ 0.7 := by
  have hcore : profile_core c9Tables [] [] [] [liked_lib_vec] (112 : Fin 128)
      = 0.3 := by
    rw [profile_core, if_neg (by simp), centroid_blend_apply]
    simp [liked_lib_vec, prefs_profile, zero_vector]
  refine ⟨?_, ?_, by norm_num⟩
  · rw [build_user_profile, apply_source_bias_apply, if_neg (by decide),
      if_pos rfl]
  · simp only [claimed_source_bias, if_pos, eq_self_iff_true, if_true]
    rw [hcore]
    norm_num

theorem C9_profile_bias_witness :
    ((0 : Fin 128) ≠ (112 : Fin 128)) ∧ ((0 : Fin 128) ≠ (113 : Fin 128))
    ∧ ([liked_lib_vec] ≠ ([] : List Vec))
    ∧ build_user_profile c9Tables [] [] [] [liked_lib_vec] (112 : Fin 128) = 0.4
    ∧ build_user_profile c9Tables [] [] [] [liked_lib_vec] (0 : Fin 128)
        = profile_core c9Tables [] [] [] [liked_lib_vec] (0 : Fin 128)
    ∧ profile_core c9Tables [] [] [] [liked_lib_vec] (0 : Fin 128)
        = prefs_profile c9Tables [] [] [] (0 : Fin 128)
          + ([liked_lib_vec].map fun sv => sv (0 : Fin 128)).sum
              / ([liked_lib_vec] : List Vec).length * 0.3 := by
  have h := C9_profile_bias c9Tables [] [] [] [liked_lib_vec]
  exact ⟨by decide, by decide, by simp, h.1,
    h.2.2.1 0 (by decide) (by decide), h.2.2.2.1 (by simp) 0⟩

end Vexo
